import Mathlib

/-!
Verification development for the FenicsSolver repository
(`FenicsSolver/SolverBase.py` and `FenicsSolver/LinearElasticitySolver.py`).

The Python code is shallowly embedded: dict-based settings become structures,
Python exceptions become an explicit `PyExn` result type, dolfin/UFL objects
(Constants, Expressions, Functions, weak-form terms) become symbolic
constructors, and real arithmetic is modelled over `ℚ`.  Each definition
mirrors one Python function of the source, keeping its branch structure,
its branch order and its side conditions.
-/

namespace FenicsSolver

/-- Python exceptions that the embedded code can raise. -/
inductive PyExn where
  /-- `SolverError(msg)`, the repository's own exception class. -/
  | solverError (msg : String)
  /-- `UnboundLocalError`: a local variable is read before any assignment. -/
  | unboundLocalError (name : String)
  /-- `NameError`: a global name is not bound. -/
  | nameError (name : String)
  /-- `IndexError`: a sequence index is out of range. -/
  | indexError
  /-- `KeyError`: a dict key is missing. -/
  | keyError (name : String)
  /-- `TypeError(msg)`. -/
  | typeError (msg : String)
  /-- a bare `Exception(msg)`. -/
  | exception (msg : String)
  /-- a failed `assert`. -/
  | assertionError
deriving DecidableEq, Repr

/-- Result of running a piece of Python code: a value or a raised exception. -/
inductive PyResult (α : Type) where
  | ok (a : α)
  | exn (e : PyExn)
deriving DecidableEq, Repr

/-- `true` iff the computation returned normally. -/
def PyResult.isOk {α : Type} : PyResult α → Bool
  | .ok _ => true
  | .exn _ => false

/-- Values flowing through `translate_value` and the boundary-condition
records: Python numbers, strings, tuples/lists, `None`, Python callables,
and the dolfin objects the source wraps them into (`Constant`, `Expression`,
`Function`, results of `interpolate`, fields loaded from a file). -/
inductive PyValue where
  /-- a Python number (modelled over `ℚ`). -/
  | num (q : ℚ)
  /-- a Python string. -/
  | strV (s : String)
  /-- a Python tuple / list / ndarray of values. -/
  | tup (vs : List PyValue)
  /-- dolfin `Constant(v)`. -/
  | constV (v : PyValue)
  /-- dolfin `Expression(s)`. -/
  | exprV (s : String)
  /-- a dolfin `Function` (abstract handle). -/
  | funcV (id : ℕ)
  /-- result of `interpolate(Expression(e), W)`. -/
  | interpV (e : PyValue)
  /-- a field read back from file `s` and interpolated onto the space. -/
  | fileV (s : String)
  /-- a Python callable (time ↦ value). -/
  | callableV (f : ℚ → PyValue)
  /-- Python `None`. -/
  | noneV

/-- `true` exactly on `None` (the `disp is None` test of the source). -/
def PyValue.isNone : PyValue → Bool
  | .noneV => true
  | _ => false

/-- `isinstance(v, numbers.Number)`. -/
def PyValue.isNum : PyValue → Bool
  | .num _ => true
  | _ => false

/-- `isinstance(v, str)`. -/
def PyValue.isStr : PyValue → Bool
  | .strV _ => true
  | _ => false

/-- Python truthiness (`bool(v)`): `None`, `0`, `""` and `()` are falsy,
every other modelled value (including any dolfin object) is truthy. -/
def PyValue.truthy : PyValue → Bool
  | .num q => !(q == 0)
  | .strV s => !(s == "")
  | .tup vs => !vs.isEmpty
  | .noneV => false
  | _ => true

/-- The `time_step` entry of `transient_settings`: either convertible to a
number (`float(time_step)` succeeds) or not, in which case the source falls
back to the `time_series` list. -/
inductive TimeStepSpec where
  | fixed (dt : ℚ)
  | series (ts : List ℚ)
deriving DecidableEq, Repr

/-- The `transient_settings` sub-dict of the case settings. -/
structure TransientSettings where
  transient : Bool
  starting_time : ℚ
  time_step : TimeStepSpec
  ending_time : ℚ
deriving DecidableEq, Repr

/-- `SolverBase.get_time_step(time_iter_)`.  With a numeric `time_step` it
returns that number.  Otherwise it reads `time_series`; under
`len(ts) >= time_iter_` it computes `ts[time_iter_] - ts[time_iter_]`
(the source subtracts the element from itself), with `ts[len(ts)]` raising
`IndexError`; past the bound it only prints a warning, so the final
`return dt` reads the never-assigned local `dt` and raises
`UnboundLocalError`. -/
def get_time_step (s : TransientSettings) (time_iter_ : ℕ) : PyResult ℚ :=
  match s.time_step with
  | .fixed dt => .ok dt
  | .series ts =>
    if ts.length ≥ time_iter_ then
      match ts.get? time_iter_ with
      | some t => .ok (t - t)
      | none => .exn .indexError
    else
      .exn (.unboundLocalError "dt")

/-- `SolverBase.get_current_time(time_iter_)`.  A falsy argument (`None` or
`0`) is replaced by `self.current_step`.  With a numeric `time_step` it
returns `starting_time + dt * (time_iter_ - 1)`; with a time series it
returns `time_series[time_iter_]` under the same off-by-one bound check as
`get_time_step`, and past the bound the final `return tp` reads the
never-assigned local `tp`. -/
def get_current_time (s : TransientSettings) (current_step : ℕ)
    (time_iter_arg : Option ℕ) : PyResult ℚ :=
  let time_iter_ : ℕ :=
    match time_iter_arg with
    | none => current_step
    | some k => if k = 0 then current_step else k
  match s.time_step with
  | .fixed dt => .ok (s.starting_time + dt * ((time_iter_ : ℚ) - 1))
  | .series ts =>
    if ts.length ≥ time_iter_ then
      match ts.get? time_iter_ with
      | some t => .ok t
      | none => .exn .indexError
    else
      .exn (.unboundLocalError "tp")

/-- The `while` loop of `SolverBase.solve_transient`, counting the
build-solve iterations (`solve_current_step` calls).  Per iteration: if
`current_time < t_end`, compute `dt` (`get_time_step(current_step)` when
transient, else `1`), run the solve, `break` when not transient, otherwise
increment `current_step` and advance `current_time` by `dt`.  `fuel` bounds
the unrolling; `none` means the loop was still running when fuel ran out. -/
def transient_loop (s : TransientSettings) (t_end : ℚ) :
    ℕ → ℚ → ℕ → ℕ → Option (PyResult ℕ)
  | 0, _, _, _ => none
  | fuel + 1, current_time, current_step, count =>
    if current_time < t_end then
      match (if s.transient then get_time_step s current_step else .ok 1) with
      | .exn e => some (.exn e)
      | .ok dt =>
        if s.transient then
          transient_loop s t_end fuel (current_time + dt) (current_step + 1) (count + 1)
        else
          some (.ok (count + 1))
    else
      some (.ok count)

/-- `SolverBase.solve_transient`, reduced to its iteration count: starts at
`current_time = starting_time`, `current_step = 0`, with
`t_end = ending_time` in transient mode and `t_end = current_time + 1` in
steady mode, then runs the loop. -/
def solve_transient_steps (s : TransientSettings) (fuel : ℕ) :
    Option (PyResult ℕ) :=
  let t_end := if s.transient then s.ending_time else s.starting_time + 1
  transient_loop s t_end fuel s.starting_time 0 0

/-- The slice of solver state that `translate_value` reads: the transient
settings, the spatial dimension, the current step index, the configured
finite-element degree, and the `os.path.exists` oracle for the
string-as-filename branch. -/
structure SolverCtx where
  transient_settings : TransientSettings
  dimension : ℕ
  current_step : ℕ
  fe_degree : ℕ
  fileExists : String → Bool

/-- `SolverBase.translate_value(value)`.  Returns the translated value
together with the list of time arguments passed to a callable value (empty
for every non-callable branch; the source calls a callable at most once).
Branches, in source order:
tuple/list — dimension-length with numeric head becomes a `Constant`,
dimension-length with string head is interpolated as an `Expression`,
longer-than-dimension in transient mode is indexed by `current_step`, and
anything else only prints a warning so the final `return values_0` raises
`UnboundLocalError`; a number becomes a `Constant`; `Constant`/`Function`
and `Expression` pass through unchanged; a callable in transient mode is
invoked once with `get_current_time()` and its result returned untranslated;
a string is loaded from file if one exists, else interpolated as a C++
expression; `None` raises `TypeError`; anything else is returned unchanged
after a warning. -/
def translate_value (S : SolverCtx) (value : PyValue) :
    PyResult (PyValue × List ℚ) :=
  match value with
  | .tup vs =>
    if (vs.length == S.dimension) && vs.head?.any PyValue.isNum then
      .ok (.constV (.tup vs), [])
    else if (vs.length == S.dimension) && vs.head?.any PyValue.isStr then
      .ok (.interpV (.tup vs), [])
    else if S.transient_settings.transient && decide (vs.length > S.dimension) then
      match vs.get? S.current_step with
      | some v => .ok (v, [])
      | none => .exn .indexError
    else
      .exn (.unboundLocalError "values_0")
  | .num q => .ok (.constV (.num q), [])
  | .constV v => .ok (.constV v, [])
  | .funcV n => .ok (.funcV n, [])
  | .interpV e => .ok (.interpV e, [])
  | .fileV s => .ok (.fileV s, [])
  | .exprV s => .ok (.exprV s, [])
  | .callableV f =>
    if S.transient_settings.transient then
      match get_current_time S.transient_settings S.current_step none with
      | .ok t => .ok (f t, [t])
      | .exn e => .exn e
    else
      .ok (.callableV f, [])
  | .strV s =>
    if S.fileExists s then .ok (.fileV s, [])
    else .ok (.interpV (.strV s), [])
  | .noneV => .exn (.typeError "None type is supplied as value to be translated")

/-- One boundary-condition record of the `boundary_conditions` mapping, in
the old style (the record itself holds `type`/`value`, no per-variable
`values` list, for which `get_boundary_variable` returns the record
unchanged). -/
structure BCRecord where
  name : String
  boundary_id : ℕ
  btype : String
  value : PyValue
  direction : Option PyValue := none
  /-- the record's `variable` entry (a Lean keyword, hence the name). -/
  varname : Option String := none

/-- A hard (Dirichlet) constraint produced by
`LinearElasticitySolver.update_boundary_conditions`. -/
inductive HardBC where
  /-- `DirichletBC(V, value, boundary_facets, bid)`. -/
  | whole (value : PyValue) (bid : ℕ)
  /-- `DirichletBC(V.sub(axis_i), value, boundary_facets, bid)`. -/
  | axis (axis_i : ℕ) (value : PyValue) (bid : ℕ)
  /-- `DirichletBC(V.sub(sub_i), value, boundary_facets, bid)` on a mixed
  space. -/
  | subWhole (sub_i : ℕ) (value : PyValue) (bid : ℕ)
  /-- `DirichletBC(V.sub(sub_i).sub(axis_i), value, boundary_facets, bid)`
  on a mixed space. -/
  | subAxis (sub_i : ℕ) (axis_i : ℕ) (value : PyValue) (bid : ℕ)
  /-- the `point_source` path appends `self.settings['surface_source']`
  (as written in the source) to the constraint list. -/
  | pointSrc (v : Option (PyValue × Option PyValue))

/-- The direction factor of a weak-form traction. -/
inductive DirExpr where
  /-- `FacetNormal(mesh)`: the outward normal. -/
  | normal
  /-- an explicit `direction` vector from the record. -/
  | given (v : PyValue)

/-- A weak-form boundary term appended to `integrals_N`. -/
inductive NeumannTerm where
  /-- `dot(Constant(value), v) * ds(bid)`: a dimension-length `force` vector
  used directly. -/
  | forceVec (vs : List PyValue) (bid : ℕ)
  /-- `dot(direction * (force / area), v) * ds(bid)`: a scalar `force`
  normalized by the measured boundary area. -/
  | forceScaled (dir : DirExpr) (force : PyValue) (area : ℚ) (bid : ℕ)
  /-- `dot(direction * g, v) * ds(bid)` for a `pressure` record. -/
  | pressureT (dir : DirExpr) (g : PyValue) (bid : ℕ)
  /-- `dot(g, v) * ds(bid)` for a `stress` record whose translated value is
  a `Constant`. -/
  | stressConst (g : PyValue) (bid : ℕ)
  /-- `dot(dot(g, n), v) * ds(bid)` for a non-`Constant` `stress` value. -/
  | stressNormal (g : PyValue) (bid : ℕ)
  /-- `dot(n * gS, v) * ds` from `surface_source` (whole boundary). -/
  | surfaceNormal (gS : PyValue)

/-- The traction magnitude of a weak-form term, when it is a scalar
constant scaled by a direction: `force / area` for the area-normalized
`force` branch. -/
def NeumannTerm.tractionMagnitude : NeumannTerm → Option ℚ
  | .forceScaled _ (.constV (.num f)) a _ => some (f / a)
  | _ => none

/-- The solver-level settings `update_boundary_conditions` consults before
the per-record loop: `point_source` and `surface_source`
(value, optional direction). -/
structure ElasticitySettings where
  point_source : Option PyValue := none
  surface_source : Option (PyValue × Option PyValue) := none

/-- The per-axis loop of the `Dirichlet`/`displacement` branch: for each
entry of the vector value, a `None` axis is skipped, any other axis value
is translated and yields one `DirichletBC` on `V.sub(axis_i)` (or
`V.sub(sub_i).sub(axis_i)` when `sub_i` is given, the mixed-space form). -/
def dirichletAxes (S : SolverCtx) (sub_i : Option ℕ) (bid : ℕ) :
    List PyValue → ℕ → PyResult (List HardBC)
  | [], _ => .ok []
  | disp :: rest, axis_i =>
    if disp.isNone then
      dirichletAxes S sub_i bid rest (axis_i + 1)
    else
      match translate_value S disp with
      | .exn e => .exn e
      | .ok (tv, _) =>
        match dirichletAxes S sub_i bid rest (axis_i + 1) with
        | .exn e => .exn e
        | .ok bcs =>
          match sub_i with
          | none => .ok (.axis axis_i tv bid :: bcs)
          | some si => .ok (.subAxis si axis_i tv bid :: bcs)

/-- The boundary-condition `type` tags the dispatch recognizes. -/
def supported_bc_types : List String :=
  ["Dirichlet", "displacement", "force", "pressure", "stress"]

/-- The `SolverError` message raised for an unsupported `type` tag, as
formatted by the source (`Neumann` and `symmetry` have dedicated raises,
every other tag hits the final `else`). -/
def unsupported_msg (t : String) : String :=
  if t = "Neumann" then
    "Neumann boundary type`" ++ t ++ "` is not supported"
  else if t = "symmetry" then
    "symmetry boundary type`" ++ t ++ "` is not supported"
  else
    "boundary type`" ++ t ++ "` is not supported"

/-- The body of the per-record loop of
`LinearElasticitySolver.update_boundary_conditions`, processing one record
against the accumulated `(bcs, integrals_N)`.  `area bid` models
`assemble(Constant(1) * ds(bid, domain=mesh))`, the measured boundary
area. -/
def processBC (S : SolverCtx) (is_mixed : Bool) (area : ℕ → ℚ)
    (bc : BCRecord) (bcs : List HardBC) (terms : List NeumannTerm) :
    PyResult (List HardBC × List NeumannTerm) :=
  let i := bc.boundary_id
  if bc.btype = "Dirichlet" ∨ bc.btype = "displacement" then
    if !is_mixed then
      match bc.value with
      | .tup bv =>
        if bv.length = S.dimension then
          match dirichletAxes S none i bv 0 with
          | .exn e => .exn e
          | .ok new => .ok (bcs ++ new, terms)
        else
          match translate_value S (.tup bv) with
          | .exn e => .exn e
          | .ok (tv, _) => .ok (bcs ++ [.whole tv i], terms)
      | bv =>
        match translate_value S bv with
        | .exn e => .exn e
        | .ok (tv, _) => .ok (bcs ++ [.whole tv i], terms)
    else
      -- mixed function space (LargeDeformationSolver): sub-fields
      -- disp_i, vel_i, pressure_i = 0, 1, 2
      match bc.varname with
      | none => .exn (.keyError "variable")
      | some var =>
        if var = "displacement" then
          match bc.value with
          | .tup bv =>
            if (bv.length == S.dimension) && !(bv.all PyValue.truthy) then
              match dirichletAxes S (some 0) i bv 0 with
              | .exn e => .exn e
              | .ok new => .ok (bcs ++ new, terms)
            else
              match translate_value S (.tup bv) with
              | .exn e => .exn e
              | .ok (tv, _) => .ok (bcs ++ [.subWhole 0 tv i], terms)
          | bv =>
            match translate_value S bv with
            | .exn e => .exn e
            | .ok (tv, _) => .ok (bcs ++ [.subWhole 0 tv i], terms)
        else if var = "velocity" then
          match translate_value S bc.value with
          | .exn e => .exn e
          | .ok (tv, _) => .ok (bcs ++ [.subWhole 1 tv i], terms)
        else if var = "all" then
          match translate_value S bc.value with
          | .exn e => .exn e
          | .ok (tv, _) => .ok (bcs ++ [.whole tv i], terms)
        else
          .exn (.solverError "Error, boundary setting is not supported: ")
  else if bc.btype = "force" then
    match bc.value with
    | .tup vs =>
      if vs.length = S.dimension then
        .ok (bcs, terms ++ [.forceVec vs i])
      else
        match translate_value S (.tup vs) with
        | .exn e => .exn e
        | .ok (bc_force, _) =>
          let bc_area := area bc.boundary_id
          let dir : DirExpr :=
            match bc.direction with
            | some d => if d.truthy then .given d else .normal
            | none => .normal
          .ok (bcs, terms ++ [.forceScaled dir bc_force bc_area i])
    | v =>
      match translate_value S v with
      | .exn e => .exn e
      | .ok (bc_force, _) =>
        let bc_area := area bc.boundary_id
        let dir : DirExpr :=
          match bc.direction with
          | some d => if d.truthy then .given d else .normal
          | none => .normal
        .ok (bcs, terms ++ [.forceScaled dir bc_force bc_area i])
  else if bc.btype = "pressure" then
    let dir : DirExpr :=
      match bc.direction with
      | some d => if d.truthy then .given d else .normal
      | none => .normal
    match translate_value S bc.value with
    | .exn e => .exn e
    | .ok (g, _) => .ok (bcs, terms ++ [.pressureT dir g i])
  else if bc.btype = "stress" then
    match translate_value S bc.value with
    | .exn e => .exn e
    | .ok (g, _) =>
      match g with
      | .constV gv => .ok (bcs, terms ++ [.stressConst (.constV gv) i])
      | g => .ok (bcs, terms ++ [.stressNormal g i])
  else if bc.btype = "Neumann" then
    .exn (.solverError (unsupported_msg bc.btype))
  else if bc.btype = "symmetry" then
    .exn (.solverError (unsupported_msg bc.btype))
  else
    .exn (.solverError (unsupported_msg bc.btype))

/-- The per-record loop over `boundary_conditions.items()` in insertion
order, threading the accumulated constraints and weak terms; the first
raise aborts the pass. -/
def processBCList (S : SolverCtx) (is_mixed : Bool) (area : ℕ → ℚ) :
    List BCRecord → List HardBC → List NeumannTerm →
    PyResult (List HardBC × List NeumannTerm)
  | [], bcs, terms => .ok (bcs, terms)
  | bc :: rest, bcs, terms =>
    match processBC S is_mixed area bc bcs terms with
    | .exn e => .exn e
    | .ok (bcs', terms') => processBCList S is_mixed area rest bcs' terms'

/-- `LinearElasticitySolver.update_boundary_conditions`: seeds the
constraint list from `point_source` (which appends
`settings['surface_source']`) and `integrals_N` from `surface_source`
(a term along the outward normal only when no truthy `direction` is given;
with one, the source assigns `direction_vector` and appends nothing), then
folds the per-record dispatch over the boundary-condition mapping. -/
def update_boundary_conditions (E : ElasticitySettings) (S : SolverCtx)
    (is_mixed : Bool) (area : ℕ → ℚ) (records : List BCRecord) :
    PyResult (List HardBC × List NeumannTerm) :=
  let bcs0 : List HardBC :=
    match E.point_source with
    | some ps => if ps.truthy then [.pointSrc E.surface_source] else []
    | none => []
  let terms0 : List NeumannTerm :=
    match E.surface_source with
    | some (gS, dirOpt) =>
      match dirOpt with
      | some d => if d.truthy then [] else [.surfaceNormal gS]
      | none => [.surfaceNormal gS]
    | none => []
  processBCList S is_mixed area records bcs0 terms0

/-- `SolverBase.get_acceleration(time_iter_)`, evaluated at one degree of
freedom: the fields `w_current`, `w_prev`, `w_pp` are modelled by their
value at an arbitrary dof (the expression is linear, so the dof-wise `ℚ`
semantics captures it).  The source asserts `time_iter_ >= 1`, forms the
two backward-difference velocities
`Constant(1/dt_k) * (w_current - w_prev)` and
`Constant(1/dt_km1) * (w_prev - w_pp)`, and returns
`(vel - vel_prev) / Constant(1 / dt_k)` — literally a division by the
reciprocal of the current time step. -/
def get_acceleration (s : TransientSettings) (time_iter_ : ℕ)
    (w_current w_prev w_pp : ℚ) : PyResult ℚ :=
  if time_iter_ ≥ 1 then
    match get_time_step s time_iter_ with
    | .exn e => .exn e
    | .ok dtk =>
      match get_time_step s (time_iter_ - 1) with
      | .exn e => .exn e
      | .ok dtkm1 =>
        let vel := (1 / dtk) * (w_current - w_prev)
        let vel_prev := (1 / dtkm1) * (w_prev - w_pp)
        .ok ((vel - vel_prev) / (1 / dtk))
  else
    .exn .assertionError

/-- The inertial term of `LinearElasticitySolver.generate_form`: only when
transient mode and `solving_dynamics` are both on and `time_iter_ >= 1`
does the form subtract `density * inner(accel, v) * dx`; the returned value
is the dof-wise factor `density * accel` (`none` when no inertial term is
included in the form). -/
def generate_form_inertial (s : TransientSettings) (solving_dynamics : Bool)
    (time_iter_ : ℕ) (density w_current w_prev w_pp : ℚ) :
    Option (PyResult ℚ) :=
  if s.transient && solving_dynamics then
    if time_iter_ ≥ 1 then
      match get_acceleration s time_iter_ w_current w_prev w_pp with
      | .ok a => some (.ok (density * a))
      | .exn e => some (.exn e)
    else
      none
  else
    none

/-- One in-place modification of a nullspace basis vector. -/
inductive VecOp where
  /-- `V.sub(sub).dofmap().set(vec, val)`: write `val` at every dof of the
  sub-field. -/
  | dofSet (sub : ℕ) (val : ℚ)
  /-- `V.sub(sub).set_x(vec, scale, coord)`: write `scale * x[coord]` at
  every dof of the sub-field. -/
  | setX (sub : ℕ) (scale : ℚ) (coord : ℕ)
deriving DecidableEq, Repr

/-- One nullspace basis vector: a copy of the supplied vector `x` with the
recorded modifications, and whether `apply("insert")` (the halo/ghost
commit) has been called on it. -/
structure NSVec where
  ops : List VecOp
  applied : Bool
deriving DecidableEq, Repr

/-- The `VectorSpaceBasis` returned by `build_nullspace`, with the flag set
once `orthonormalize()` has run. -/
structure VSBasis where
  vecs : List NSVec
  orthonormalized : Bool
deriving DecidableEq, Repr

/-- `SolverBase.build_nullspace(V, x)` as a trace of the vector operations.
3-D: six copies of `x`; the first three get `dofmap().set(_, 1.0)` on
sub-fields 0/1/2, the last three get the rotational `set_x` pairs.  2-D:
three copies of `x`; only the third gets the in-plane-rotation `set_x`
pair — the source never modifies the first two.  Any other dimension
raises.  Every vector is then finalized with `apply("insert")` before
`orthonormalize()` runs on the collected basis. -/
def build_nullspace (dimension : ℕ) : PyResult VSBasis :=
  let raw : PyResult (List NSVec) :=
    if dimension = 3 then
      .ok [⟨[.dofSet 0 1], false⟩,
           ⟨[.dofSet 1 1], false⟩,
           ⟨[.dofSet 2 1], false⟩,
           ⟨[.setX 0 (-1) 1, .setX 1 1 0], false⟩,
           ⟨[.setX 0 1 2, .setX 2 (-1) 0], false⟩,
           ⟨[.setX 2 1 1, .setX 1 (-1) 2], false⟩]
    else if dimension = 2 then
      .ok [⟨[], false⟩,
           ⟨[], false⟩,
           ⟨[.setX 0 (-1) 1, .setX 1 1 0], false⟩]
    else
      .exn (.exception "only 2D or 3D is supported by nullspace")
  match raw with
  | .exn e => .exn e
  | .ok vecs =>
    let finalized := vecs.map (fun v => { v with applied := true })
    .ok ⟨finalized, true⟩

/-- The names bound at module level in `SolverBase.py` (imports, the
exception class, the default-settings dicts, the solver class, and the
python2/3 compatibility aliases).  `translate_value` is a method of
`SolverBase`, not a module-level name. -/
def solverbase_module_names : List String :=
  ["sys", "numbers", "copy", "logging", "np", "os",
   "unicode", "bytes", "basestring", "str",
   "SolverError", "default_report_settings", "default_solver_parameters",
   "default_case_settings", "SolverBase"]

/-- A representative list of the names `from dolfin import *` brings into
the module namespace (the dolfin/UFL public API used by the source).
`translate_value` is a FenicsSolver-specific method name, not part of the
dolfin API. -/
def dolfin_star_names : List String :=
  ["Mesh", "MeshFunction", "FunctionSpace", "VectorFunctionSpace",
   "Function", "Constant", "Expression", "DirichletBC", "FacetNormal",
   "Measure", "assemble", "assemble_system", "interpolate", "project",
   "TrialFunction", "TestFunction", "MPI", "File", "HDF5File", "XDMFFile",
   "Timer", "LinearSolver", "LinearVariationalProblem",
   "LinearVariationalSolver", "NonlinearVariationalProblem",
   "NonlinearVariationalSolver", "PETScPreconditioner", "PETScOptions",
   "PETScKrylovSolver", "PETScMatrix", "PETScVector", "SLEPcEigenSolver",
   "VectorSpaceBasis", "plot", "interactive", "set_log_active",
   "parameters", "solve", "split", "lhs", "rhs", "system", "dx", "ds",
   "grad", "div", "inner", "dot", "sym", "tr", "sqrt", "Identity",
   "as_matrix", "as_backend_type", "has_linear_algebra_backend",
   "mpi_comm_world", "PointSource", "DirichletBC"]

/-- One entry of a new-style `values` list on a boundary record. -/
structure ValueEntry where
  varname : String
  value : PyValue

/-- The slice of a boundary record that `get_boundary_value` reads: either
an old-style `value` entry or a new-style `values` list. -/
structure BValueRecord where
  value : Option PyValue := none
  values : Option (List ValueEntry) := none

/-- `SolverBase.get_boundary_value(bc, variable)`.  The statements before
the return compute `bvalue`: with a `values` list, the entry whose
`variable` matches (the last match wins) is taken and no match leaves the
local unassigned; without one, `bvalue = bc['value']` raises
`KeyError: 'value'` when the key is missing, so the return is never
reached on that path.  The return itself is
`return translate_value(bvalue)`: the bare callee name is resolved first,
before the argument is read, and it is bound neither at module level nor
by `from dolfin import *` (the method lives on `SolverBase`), so every
call that reaches the return raises `NameError` — even with `bvalue`
unassigned, whose `UnboundLocalError` would come second. -/
def get_boundary_value (dolfinExports : List String) (defaultVar : String)
    (bc : BValueRecord) (variableArg : Option String) : PyResult PyValue :=
  let stmts : PyResult (Option PyValue) :=
    match bc.values with
    | some entries =>
      let var :=
        match variableArg with
        | none => defaultVar
        | some v => if v = "" then defaultVar else v
      .ok (((entries.filter (fun e => e.varname = var)).getLast?).map
            (fun e => e.value))
    | none =>
      match bc.value with
      | some v => .ok (some v)
      | none => .exn (.keyError "value")
  match stmts with
  | .exn e => .exn e
  | .ok bvalue =>
    if "translate_value" ∈ solverbase_module_names ∨
       "translate_value" ∈ dolfinExports then
      -- unreachable for the actual module: the name is unbound
      match bvalue with
      | some v => .ok v
      | none => .exn (.unboundLocalError "bvalue")
    else
      .exn (.nameError "translate_value")

/-- `translate_value` on a plain number wraps it in a `Constant`. -/
theorem translate_value_num (S : SolverCtx) (q : ℚ) :
    translate_value S (.num q) = .ok (.constV (.num q), []) := rfl

/-- The per-axis Dirichlet loop on a vector of numbers and `None` markers
produces exactly one `V.sub(axis)` constraint per non-`None` entry, at that
entry's axis index, and skips exactly the `None` entries. -/
theorem dirichletAxes_num_none (S : SolverCtx) (bid : ℕ) (bv : List PyValue)
    (start : ℕ)
    (h : ∀ x ∈ bv, x = PyValue.noneV ∨ ∃ q, x = PyValue.num q) :
    dirichletAxes S none bid bv start =
      .ok (((bv.enumFrom start).filter (fun p => !p.2.isNone)).map
        (fun p => HardBC.axis p.1 (.constV p.2) bid)) := by
  revert h
  induction bv generalizing start with
  | nil =>
    intro h
    simp [dirichletAxes]
  | cons x rest ih =>
    intro h
    have hrest : ∀ y ∈ rest, y = PyValue.noneV ∨ ∃ q, y = PyValue.num q :=
      fun y hy => h y (List.mem_cons_of_mem _ hy)
    rcases h x (List.mem_cons_self _ _) with hx | ⟨q, hx⟩
    · subst hx
      simp [dirichletAxes, PyValue.isNone, List.enumFrom, List.filter,
            ih (start + 1) hrest]
    · subst hx
      simp [dirichletAxes, PyValue.isNone, translate_value, List.enumFrom,
            List.filter, ih (start + 1) hrest]

/-- An unsupported `type` tag falls through every recognized branch of the
dispatch to one of the three raises, producing the `SolverError` whose
message names the tag. -/
theorem processBC_unsupported (S : SolverCtx) (is_mixed : Bool)
    (area : ℕ → ℚ) (bc : BCRecord) (bcs : List HardBC)
    (terms : List NeumannTerm) (h : bc.btype ∉ supported_bc_types) :
    processBC S is_mixed area bc bcs terms
      = .exn (.solverError (unsupported_msg bc.btype)) := by
  simp only [supported_bc_types, List.mem_cons, List.not_mem_nil, or_false,
             not_or] at h
  obtain ⟨h1, h2, h3, h4, h5⟩ := h
  simp [processBC, h1, h2, h3, h4, h5]

/-- A resolution pass that returns normally visited only recognized tags:
an unrecognized record can never be silently skipped. -/
theorem processBCList_ok_supported (S : SolverCtx) (is_mixed : Bool)
    (area : ℕ → ℚ) :
    ∀ (l : List BCRecord) (bcs : List HardBC) (terms : List NeumannTerm)
      (r : List HardBC × List NeumannTerm),
      processBCList S is_mixed area l bcs terms = .ok r →
      ∀ b ∈ l, b.btype ∈ supported_bc_types := by
  intro l
  induction l with
  | nil =>
    intro bcs terms r _ b hb
    cases hb
  | cons bc rest ih =>
    intro bcs terms r hok b hb
    have hsup : bc.btype ∈ supported_bc_types := by
      by_contra hns
      have hproc := processBC_unsupported S is_mixed area bc bcs terms hns
      simp only [processBCList, hproc] at hok
      exact PyResult.noConfusion hok
    rcases List.mem_cons.mp hb with hb0 | hb'
    · exact hb0 ▸ hsup
    · cases hproc : processBC S is_mixed area bc bcs terms with
      | exn e =>
        simp only [processBCList, hproc] at hok
        exact PyResult.noConfusion hok
      | ok p =>
        obtain ⟨bcs', terms'⟩ := p
        simp only [processBCList, hproc] at hok
        exact ih bcs' terms' r hok b hb'

/-- Claim C1: in steady mode (`transient = false`) `solve_transient`
executes exactly one build-solve iteration for every configuration and any
sufficient fuel, and in transient mode with `starting_time = 0`,
`time_step = 0.01`, `ending_time = 0.03` it executes exactly 3 iterations,
the loop exiting when the current time reaches the ending time. -/
theorem solve_transient_iteration_counts :
    (∀ (s : TransientSettings) (fuel : ℕ), s.transient = false → 1 ≤ fuel →
      solve_transient_steps s fuel = some (.ok 1)) ∧
    solve_transient_steps ⟨true, 0, .fixed (1/100), 3/100⟩ 10
      = some (.ok 3) := by
  constructor
  · intro s fuel hs hf
    match fuel, hf with
    | fuel + 1, _ =>
      simp [solve_transient_steps, transient_loop, hs, lt_add_one]
  · norm_num [solve_transient_steps, transient_loop, get_time_step]

/-- Witness for C1: a concrete steady configuration runs exactly one
iteration. -/
theorem solve_transient_iteration_counts_witness :
    solve_transient_steps ⟨false, 5, .fixed 7, 2⟩ 3 = some (.ok 1) :=
  solve_transient_iteration_counts.1 ⟨false, 5, .fixed 7, 2⟩ 3 rfl (by decide)

/-- Claim C4 (code bug): with an explicit time series the source computes
`dt = ts[time_iter_] - ts[time_iter_]`, so every in-range lookup returns
`0` — not the increment between consecutive time points (here `1/10` and
`1/5`) — the current time never advances, and the driver run aborts with
`IndexError` once the step index reaches the series length instead of
marching to the ending time. -/
theorem time_series_step_always_zero :
    (get_time_step ⟨true, 0, .series [0, 1/10, 3/10], 3/10⟩ 0 = .ok 0 ∧
     get_time_step ⟨true, 0, .series [0, 1/10, 3/10], 3/10⟩ 1 = .ok 0 ∧
     get_time_step ⟨true, 0, .series [0, 1/10, 3/10], 3/10⟩ 2 = .ok 0) ∧
    ((1 : ℚ)/10 - 0 ≠ 0 ∧ (3 : ℚ)/10 - 1/10 ≠ 0) ∧
    solve_transient_steps ⟨true, 0, .series [0, 1/10, 3/10], 3/10⟩ 10
      = some (.exn .indexError) := by
  norm_num [solve_transient_steps, transient_loop, get_time_step]

/-- Counterexample for C9: past the end of the time series, neither
`get_time_step` nor `get_current_time` returns normally — both raise
`UnboundLocalError`, refuting "silently proceeds, returning normally to
its caller rather than raising an exception". -/
theorem time_series_overrun_counterexample :
    (get_time_step ⟨true, 0, .series [0], 1⟩ 5).isOk = false ∧
    get_time_step ⟨true, 0, .series [0], 1⟩ 5 = .exn (.unboundLocalError "dt") ∧
    (get_current_time ⟨true, 0, .series [0], 1⟩ 0 (some 5)).isOk = false := by
  decide

/-- Claim C9 as amended: when the step index exceeds the series length the
source prints its warning, but the subsequent `return dt` / `return tp`
reads a local that was never assigned, so the call raises
`UnboundLocalError` rather than returning normally. -/
theorem time_series_overrun_raises (s : TransientSettings) (ts : List ℚ)
    (k c : ℕ) (hser : s.time_step = .series ts) (hk : ts.length < k) :
    get_time_step s k = .exn (.unboundLocalError "dt") ∧
    get_current_time s c (some k) = .exn (.unboundLocalError "tp") := by
  have hk0 : ¬ k = 0 := by omega
  have hnle : ¬ ts.length ≥ k := not_le.mpr hk
  constructor
  · simp [get_time_step, hser, hnle]
  · simp [get_current_time, hser, hk0, hnle]

/-- Witness for C9's amended claim at a concrete overrun index. -/
theorem time_series_overrun_raises_witness :
    get_time_step ⟨true, 0, .series [0], 1⟩ 5
        = .exn (.unboundLocalError "dt") ∧
    get_current_time ⟨true, 0, .series [0], 1⟩ 0 (some 5)
        = .exn (.unboundLocalError "tp") :=
  time_series_overrun_raises ⟨true, 0, .series [0], 1⟩ [0] 5 0 rfl (by decide)

/-- Counterexample for C8: at step `k = 1` with `starting_time = 0` and
fixed `time_step = 1/100`, the callable is invoked with
`starting_time + dt * (k - 1) = 0`, not with
`starting_time + k * dt = 1/100` as the claim states. -/
theorem translate_callable_time_counterexample :
    translate_value ⟨⟨true, 0, .fixed (1/100), 3/100⟩, 3, 1, 1, fun _ => false⟩
        (.callableV PyValue.num) = .ok (.num 0, [0]) ∧
    (0 : ℚ) ≠ 0 + 1 * (1/100) := by
  constructor
  · norm_num [translate_value, get_current_time]
  · norm_num

/-- Claim C8 as amended: in transient mode with a fixed step,
`translate_value` on a callable value invokes it exactly once, with
argument `starting_time + dt * (current_step - 1)` (the value of
`get_current_time`), and returns the callable's result unchanged without
re-translating it. -/
theorem translate_callable_invocation (start dt tend : ℚ) (dim deg k : ℕ)
    (fe : String → Bool) (f : ℚ → PyValue) :
    translate_value ⟨⟨true, start, .fixed dt, tend⟩, dim, k, deg, fe⟩
        (.callableV f)
      = .ok (f (start + dt * ((k : ℚ) - 1)), [start + dt * ((k : ℚ) - 1)]) :=
  rfl

/-- Claim C7 (code bug): `get_acceleration` returns
`(vel - vel_prev) / Constant(1 / dt_k)`, i.e. it multiplies the velocity
difference by the time step instead of dividing by it.  With `dt = 2` and
dof values `(w_current, w_prev, w_pp) = (4, 1, 0)` the velocity difference
is `1`, the claimed acceleration is `1/2`, and the source yields `2`.  The
gating is as claimed: no inertial term at `time_step = 0`, a
density-weighted term from `time_step = 1` on. -/
theorem acceleration_multiplies_by_dt :
    get_acceleration ⟨true, 0, .fixed 2, 10⟩ 1 4 1 0 = .ok 2 ∧
    ((2 : ℚ) ≠ ((3 : ℚ)/2 - 1/2) / 2) ∧
    generate_form_inertial ⟨true, 0, .fixed 2, 10⟩ true 0 5 4 1 0 = none ∧
    generate_form_inertial ⟨true, 0, .fixed 2, 10⟩ true 1 5 4 1 0
      = some (.ok 10) := by
  norm_num [get_acceleration, generate_form_inertial, get_time_step]

/-- Claim C6 (code bug): in 2-D the source builds three copies of the
input vector but applies `set_x` only to the third (the in-plane
rotation); the first two vectors get no `dofmap().set` at all, so they
stay identical unmodified copies of `x` rather than the two unit
translations — and being equal they cannot be orthonormalized into three
independent rigid-body modes.  The 3-D branch does build the 3
translations and 3 rotations, and any other dimension raises. -/
theorem nullspace_2d_untranslated :
    build_nullspace 2
      = .ok ⟨[⟨[], true⟩, ⟨[], true⟩,
              ⟨[.setX 0 (-1) 1, .setX 1 1 0], true⟩], true⟩ ∧
    build_nullspace 3
      = .ok ⟨[⟨[.dofSet 0 1], true⟩, ⟨[.dofSet 1 1], true⟩,
              ⟨[.dofSet 2 1], true⟩,
              ⟨[.setX 0 (-1) 1, .setX 1 1 0], true⟩,
              ⟨[.setX 0 1 2, .setX 2 (-1) 0], true⟩,
              ⟨[.setX 2 1 1, .setX 1 (-1) 2], true⟩], true⟩ ∧
    build_nullspace 1
      = .exn (.exception "only 2D or 3D is supported by nullspace") := by
  decide

/-- Claim C10: every call to `get_boundary_value` that reaches its
`return` statement — every record except one with neither a `values` nor
a `value` key, which raises `KeyError` at the earlier
`bvalue = bc['value']` statement — raises `NameError`, because the
returned expression calls the bare name `translate_value`, which is bound
neither at module level in `SolverBase.py` nor by `from dolfin import *`
(it is a method of `SolverBase`). -/
theorem get_boundary_value_raises_nameerror (dolfinExports : List String)
    (defaultVar : String) (bc : BValueRecord) (variableArg : Option String)
    (h : "translate_value" ∉ dolfinExports)
    (hreach : bc.values ≠ none ∨ bc.value ≠ none) :
    get_boundary_value dolfinExports defaultVar bc variableArg
      = .exn (.nameError "translate_value") := by
  have h0 : "translate_value" ∉ solverbase_module_names := by decide
  cases hv : bc.values with
  | some entries =>
    simp [get_boundary_value, hv, h, h0]
  | none =>
    cases hval : bc.value with
    | some v =>
      simp [get_boundary_value, hv, hval, h, h0]
    | none =>
      rcases hreach with hc | hc
      · exact absurd hv hc
      · exact absurd hval hc

/-- Witness for C10 with the representative dolfin export list and a
concrete record that reaches the return statement. -/
theorem get_boundary_value_raises_nameerror_witness :
    get_boundary_value dolfin_star_names "displacement"
        ⟨some (.num 1), none⟩ none
      = .exn (.nameError "translate_value") :=
  get_boundary_value_raises_nameerror dolfin_star_names "displacement"
    ⟨some (.num 1), none⟩ none (by decide) (Or.inr (by simp))

/-- Claim C2: a `displacement`/`Dirichlet` record on a single (non-mixed)
vector space with a dimension-length vector value yields one hard
constraint per non-`None` axis (an explicit zero included) and skips
exactly the `None` axes; in particular the 3-D value `[v, None, v]`
yields exactly the two `V.sub` constraints on axes 0 and 2, with axis 1
unconstrained. -/
theorem displacement_axes_constraints (S : SolverCtx) (area : ℕ → ℚ)
    (v : ℚ) (bid : ℕ) (bv : List PyValue) (hdim : S.dimension = 3)
    (hbv : ∀ x ∈ bv, x = PyValue.noneV ∨ ∃ q, x = PyValue.num q)
    (hlen : bv.length = 3) :
    update_boundary_conditions ⟨none, none⟩ S false area
        [⟨"b", bid, "displacement", .tup [.num v, .noneV, .num v], none, none⟩]
      = .ok ([.axis 0 (.constV (.num v)) bid, .axis 2 (.constV (.num v)) bid],
             []) ∧
    update_boundary_conditions ⟨none, none⟩ S false area
        [⟨"b", bid, "displacement", .tup bv, none, none⟩]
      = .ok ((bv.enum.filter (fun p => !p.2.isNone)).map
          (fun p => HardBC.axis p.1 (.constV p.2) bid), []) := by
  constructor
  · simp [update_boundary_conditions, processBCList, processBC, hdim,
          dirichletAxes, translate_value, PyValue.isNone]
  · have hax := dirichletAxes_num_none S bid bv 0 hbv
    simp [update_boundary_conditions, processBCList, processBC, hdim, hlen,
          hax, List.enum]

/-- Witness for C2 at a concrete 3-D record, with an explicit zero axis in
the quantified vector. -/
theorem displacement_axes_constraints_witness :
    update_boundary_conditions ⟨none, none⟩
        ⟨⟨false, 0, .fixed 1, 1⟩, 3, 0, 1, fun _ => false⟩ false (fun _ => 1)
        [⟨"b", 7, "displacement", .tup [.num 3, .noneV, .num 3], none, none⟩]
      = .ok ([.axis 0 (.constV (.num 3)) 7, .axis 2 (.constV (.num 3)) 7],
             []) :=
  (displacement_axes_constraints
    ⟨⟨false, 0, .fixed 1, 1⟩, 3, 0, 1, fun _ => false⟩ (fun _ => 1) 3 7
    [.num 0, .noneV, .num 5] rfl
    (by
      intro x hx
      simp only [List.mem_cons, List.not_mem_nil, or_false] at hx
      rcases hx with rfl | rfl | rfl
      · exact Or.inr ⟨0, rfl⟩
      · exact Or.inl rfl
      · exact Or.inr ⟨5, rfl⟩) rfl).1

/-- Claim C3: a record whose tag is `Neumann`, `symmetry`, or any tag
outside the recognized set raises a `SolverError` whose message names the
offending tag, aborting the pass with no partial result; and a pass that
returns normally never contained such a record (nothing is silently
skipped). -/
theorem unsupported_bc_raises (t : String) (S : SolverCtx) (is_mixed : Bool)
    (area : ℕ → ℚ) (bc : BCRecord) (rest : List BCRecord)
    (bcs : List HardBC) (terms : List NeumannTerm)
    (hunsup : t ∉ supported_bc_types) (hbc : bc.btype = t) :
    (processBCList S is_mixed area (bc :: rest) bcs terms
       = .exn (.solverError (unsupported_msg t)) ∧
     ∃ pre post, unsupported_msg t = pre ++ t ++ post) ∧
    (∀ (E : ElasticitySettings) (l : List BCRecord)
       (r : List HardBC × List NeumannTerm),
       update_boundary_conditions E S is_mixed area l = .ok r →
       ∀ b ∈ l, b.btype ∈ supported_bc_types) := by
  subst hbc
  refine ⟨⟨?_, ?_⟩, ?_⟩
  · have hproc := processBC_unsupported S is_mixed area bc bcs terms hunsup
    simp only [processBCList, hproc]
  · by_cases h1 : bc.btype = "Neumann"
    · refine ⟨"Neumann boundary type`", "` is not supported", ?_⟩
      rw [h1]
      rfl
    · by_cases h2 : bc.btype = "symmetry"
      · refine ⟨"symmetry boundary type`", "` is not supported", ?_⟩
        rw [h2]
        rfl
      · refine ⟨"boundary type`", "` is not supported", ?_⟩
        simp [unsupported_msg, h1, h2]
  · intro E l r hok b hb
    exact processBCList_ok_supported S is_mixed area l _ _ r hok b hb

/-- Witness for C3: a concrete `Neumann` record raises the `SolverError`
naming the tag. -/
theorem unsupported_bc_raises_witness :
    processBCList ⟨⟨false, 0, .fixed 1, 1⟩, 3, 0, 1, fun _ => false⟩ false
        (fun _ => 1) [⟨"b", 2, "Neumann", .num 1, none, none⟩] [] []
      = .exn (.solverError "Neumann boundary type`Neumann` is not supported")
      := by
  have h := (unsupported_bc_raises "Neumann"
    ⟨⟨false, 0, .fixed 1, 1⟩, 3, 0, 1, fun _ => false⟩ false (fun _ => 1)
    ⟨"b", 2, "Neumann", .num 1, none, none⟩ [] [] [] (by decide) rfl).1.1
  simpa [unsupported_msg] using h

/-- Claim C5: a `force` record with scalar magnitude `F`, measured
boundary area `A > 0` and no explicit direction contributes the weak-form
term `direction_normal * (F / A)` — traction magnitude `F / A` along the
outward normal — while a dimension-length vector value is used directly as
a constant traction with no area normalization. -/
theorem force_traction_normalization (S : SolverCtx) (area : ℕ → ℚ)
    (F A : ℚ) (bid : ℕ) (vs : List PyValue) (hdim : S.dimension = 3)
    (hA : 0 < A) (harea : area bid = A) (hlen : vs.length = 3) :
    (update_boundary_conditions ⟨none, none⟩ S false area
        [⟨"load", bid, "force", .num F, none, none⟩]
      = .ok ([], [.forceScaled .normal (.constV (.num F)) A bid]) ∧
     NeumannTerm.tractionMagnitude
        (.forceScaled .normal (.constV (.num F)) A bid) = some (F / A)) ∧
    update_boundary_conditions ⟨none, none⟩ S false area
        [⟨"load", bid, "force", .tup vs, none, none⟩]
      = .ok ([], [.forceVec vs bid]) := by
  refine ⟨⟨?_, rfl⟩, ?_⟩
  · simp [update_boundary_conditions, processBCList, processBC,
          translate_value, harea]
  · simp [update_boundary_conditions, processBCList, processBC, hdim, hlen]

/-- Witness for C5: `F = 6` over area `A = 2` gives traction magnitude
`3` along the outward normal. -/
theorem force_traction_normalization_witness :
    update_boundary_conditions ⟨none, none⟩
        ⟨⟨false, 0, .fixed 1, 1⟩, 3, 0, 1, fun _ => false⟩ false (fun _ => 2)
        [⟨"load", 4, "force", .num 6, none, none⟩]
      = .ok ([], [.forceScaled .normal (.constV (.num 6)) 2 4]) ∧
    NeumannTerm.tractionMagnitude
        (.forceScaled .normal (.constV (.num 6)) 2 4) = some 3 := by
  have h := force_traction_normalization
    ⟨⟨false, 0, .fixed 1, 1⟩, 3, 0, 1, fun _ => false⟩ (fun _ => 2) 6 2 4
    [.num 1, .num 0, .num 0] rfl (by norm_num) rfl rfl
  refine ⟨h.1.1, ?_⟩
  rw [h.1.2]
  norm_num

end FenicsSolver
